import Mathlib

/-
Verification of the column-mapping core of `analyze_excel.py` and the
batch-merge logic of `merge_batches.py` from the county-cad-tracker
repository, as a shallow embedding in Lean.
-/

namespace CountyCad

/-- The fixed alias table `expected_mapping` from `analyze_excel.py`
(lines 39-49): each canonical PostgreSQL field name paired with its
ordered list of acceptable Excel column labels. -/
def expected_mapping : List (String × List String) :=
  [ ("accountNumber", ["Account Number", "ACCOUNT NUMBER", "Account #", "ACCOUNT #"]),
    ("ownerName", ["Owner Name", "OWNER NAME", "Owner", "OWNER"]),
    ("propertyAddress", ["Property Address", "PROPERTY ADDRESS", "Address", "ADDRESS", "Property Addr"]),
    ("mailingAddress", ["Mailing Address", "MAILING ADDRESS", "Mail Address"]),
    ("totalDue", ["Total Due", "TOTAL DUE", "Amount Due", "AMOUNT DUE", "Total Amount"]),
    ("percentageDue", ["Percentage Due", "PERCENTAGE DUE", "Percent", "PERCENT", "%"]),
    ("status", ["Status", "STATUS"]),
    ("taxYear", ["Tax Year", "TAX YEAR", "Year"]),
    ("legalDescription", ["Legal Description", "LEGAL DESCRIPTION", "Legal Desc"]) ]

/-- The matching loop of `analyze_excel.py` (lines 51-63), recursing over
the alias table.  `cols` is `df.columns` (fixed), the extra list argument
is the mutable `unmapped` list.  For each `(db_field, possible_names)`
entry the inner `for col in df.columns ... break` loop is `cols.find?`
(first column whose label is in the alias list); on a hit the field is
recorded in `mapped` and the first occurrence of the label is removed
from `unmapped` (`unmapped.remove(col)` guarded by `if col in unmapped`,
i.e. `List.erase`). -/
def matchColumnsAux (cols : List String) :
    List (String × List String) → List String → List (String × String) × List String
  | [], unmapped => ([], unmapped)
  | (db_field, possible_names) :: rest, unmapped =>
    match cols.find? (fun col => possible_names.contains col) with
    | some col =>
      let r := matchColumnsAux cols rest (unmapped.erase col)
      ((db_field, col) :: r.1, r.2)
    | none => matchColumnsAux cols rest unmapped

/-- The mapper over an arbitrary alias table: `mapped` starts empty,
`unmapped` starts as a copy of the source columns (line 51-52). -/
def matchColumns (table : List (String × List String)) (cols : List String) :
    List (String × String) × List String :=
  matchColumnsAux cols table cols

/-- The mapper as run by `analyze_excel.py`, with its fixed alias table. -/
def mapColumns (cols : List String) : List (String × String) × List String :=
  matchColumns expected_mapping cols

/-- The four critical fields checked at line 78 of `analyze_excel.py`. -/
def critical_fields : List String :=
  ["accountNumber", "ownerName", "propertyAddress", "totalDue"]

/-- `field in mapped` on the Python dict: does the association list
carry an entry for field `f`. -/
def hasField (mapped : List (String × String)) (f : String) : Bool :=
  mapped.any (fun p => p.1 == f)

/-- The `missing_critical` list built at lines 77-80: the critical
fields, in their fixed order, that are absent from `mapped`. -/
def missing_critical (mapped : List (String × String)) : List String :=
  critical_fields.filter (fun f => !(hasField mapped f))

/-- Line 82: the outcome is blocking exactly when `missing_critical` is
non-empty. -/
def blocking (mapped : List (String × String)) : Bool :=
  !(missing_critical mapped).isEmpty

/-- A loaded spreadsheet as far as the analyzer inspects it: its column
labels and its number of rows. -/
structure Frame where
  columns : List String
  nrows : Nat
deriving DecidableEq, Repr

/-- The body of `analyze_excel` (lines 17-98): the `try` block receives
the result of `pd.read_excel`; a raised exception is caught at line 96
and turned into the return value `(None, None)` (modelled as `none`),
otherwise the frame and the computed mapping are returned (line 94). -/
def analyze_excel (readResult : Except String Frame) :
    Option (Frame × List (String × String)) :=
  match readResult with
  | .error _ => none
  | .ok df => some (df, (mapColumns df.columns).1)

/-- The `__main__` tail (lines 117-119): the follow-up tip is printed
exactly when the returned `df` is not `None`. -/
def tip_shown (result : Option (Frame × List (String × String))) : Bool :=
  result.isSome

/-- `f"batch_{i:02d}.xlsx"` from `merge_batches.py` line 18: two-digit
zero-padded batch index. -/
def batch_name (i : Nat) : String :=
  "batch_" ++ (if i < 10 then "0" ++ toString i else toString i) ++ ".xlsx"

/-- The twenty file names considered by the loop `for i in range(1, 21)`
(line 17), in ascending order. -/
def batch_names : List String :=
  (List.range' 1 20).map batch_name

/-- An output spreadsheet as written by `to_excel(..., index=False)`:
its rows, and whether an index column was added. -/
structure WrittenFile (α : Type) where
  rows : List α
  index_included : Bool
deriving DecidableEq, Repr

/-- The module-level logic of `merge_batches.py` (lines 17-45) over an
abstract filesystem `fs` mapping a file name to its rows when the file
exists.  Existing batch files are read in loop order into `all_data`
(missing ones are skipped with a warning); if `all_data` is empty the
run reports an error and writes nothing, otherwise the concatenation is
written with `index=False`. -/
def merge_batches {α : Type} (fs : String → Option (List α)) :
    Option (WrittenFile α) :=
  let all_data := batch_names.filterMap fs
  if all_data.isEmpty then none
  else some { rows := all_data.flatten, index_included := false }

/-- The source columns matched by some field of the table: for each
table entry, the first source column lying in its alias list. -/
def matched_values (cols : List String) (table : List (String × List String)) :
    List String :=
  table.filterMap (fun fa => cols.find? (fun col => fa.2.contains col))

/-- The mapping produced by the loop pairs each table entry with the
first source column (in source order) lying in its alias list, skipping
entries with no match; the scratch `unmapped` list plays no role in it. -/
theorem matchColumnsAux_fst (cols : List String)
    (table : List (String × List String)) (u : List String) :
    (matchColumnsAux cols table u).1 =
      table.filterMap
        (fun fa => (cols.find? (fun col => fa.2.contains col)).map
          (fun col => (fa.1, col))) := by
  induction table generalizing u with
  | nil => rfl
  | cons fa rest ih =>
    obtain ⟨f, a⟩ := fa
    cases h : cols.find? (fun col => a.contains col) with
    | none =>
      simp only [matchColumnsAux, List.filterMap_cons]
      rw [h]
      exact ih u
    | some col =>
      simp only [matchColumnsAux, List.filterMap_cons]
      rw [h]
      simpa using ih (u.erase col)

/-- The labels recorded as mapping values are exactly the matched
values of the table, in table order. -/
theorem matchColumnsAux_fst_snd (cols : List String)
    (table : List (String × List String)) (u : List String) :
    (matchColumnsAux cols table u).1.map Prod.snd = matched_values cols table := by
  rw [matchColumnsAux_fst, matched_values]
  induction table with
  | nil => rfl
  | cons fa rest ih =>
    simp only [List.filterMap_cons]
    cases h : cols.find? (fun col => fa.2.contains col) with
    | none => simpa using ih
    | some col => simpa using ih

/-- Every matched value is a source column lying in the alias list of
some table entry. -/
theorem mem_matched_values {cols : List String}
    {table : List (String × List String)} {c : String}
    (hc : c ∈ matched_values cols table) :
    c ∈ cols ∧ ∃ fa ∈ table, c ∈ fa.2 := by
  rw [matched_values, List.mem_filterMap] at hc
  obtain ⟨fa, hfa, hfind⟩ := hc
  refine ⟨List.mem_of_find?_eq_some hfind, fa, hfa, ?_⟩
  have := List.find?_some hfind
  simpa using this

/-- With pairwise disjoint alias lists, the matched values of distinct
table entries are distinct labels. -/
theorem matched_values_nodup {cols : List String}
    {table : List (String × List String)}
    (hdisj : table.Pairwise (fun p q => ∀ s ∈ p.2, s ∉ q.2)) :
    (matched_values cols table).Nodup := by
  induction table with
  | nil => simp [matched_values]
  | cons fa rest ih =>
    rw [List.pairwise_cons] at hdisj
    obtain ⟨hhead, htail⟩ := hdisj
    rw [matched_values, List.filterMap_cons]
    cases h : cols.find? (fun col => fa.2.contains col) with
    | none => exact ih htail
    | some col =>
      refine List.Nodup.cons ?_ (ih htail)
      intro hmem
      obtain ⟨-, q, hq, hcq⟩ := mem_matched_values hmem
      have hcol : col ∈ fa.2 := by simpa using List.find?_some h
      exact hhead q hq col hcol hcq

/-- Partition invariant of the loop: if the pending matched values are
distinct and all present in the current `unmapped` list, then
`unmapped` is a permutation of the values recorded by the remaining
iterations together with the final `unmapped` list. -/
theorem matchColumnsAux_perm (cols : List String)
    (table : List (String × List String)) (u : List String)
    (hnd : (matched_values cols table).Nodup)
    (hmem : ∀ c ∈ matched_values cols table, c ∈ u) :
    u.Perm ((matchColumnsAux cols table u).1.map Prod.snd ++
      (matchColumnsAux cols table u).2) := by
  induction table generalizing u with
  | nil => simp [matchColumnsAux]
  | cons fa rest ih =>
    obtain ⟨f, a⟩ := fa
    cases h : cols.find? (fun col => a.contains col) with
    | none =>
      have hmv : matched_values cols ((f, a) :: rest) = matched_values cols rest := by
        rw [matched_values, List.filterMap_cons, h]; rfl
      rw [hmv] at hnd hmem
      have hstep : matchColumnsAux cols ((f, a) :: rest) u = matchColumnsAux cols rest u := by
        simp only [matchColumnsAux]
        rw [h]
      rw [hstep]
      exact ih u hnd hmem
    | some col =>
      have hmv : matched_values cols ((f, a) :: rest) =
          col :: matched_values cols rest := by
        rw [matched_values, List.filterMap_cons, h]; rfl
      rw [hmv] at hnd hmem
      have hcolu : col ∈ u := hmem col (List.mem_cons_self _ _)
      rw [List.nodup_cons] at hnd
      obtain ⟨hcol_notin, hnd'⟩ := hnd
      have hmem' : ∀ c ∈ matched_values cols rest, c ∈ u.erase col := by
        intro c hc
        have hcu : c ∈ u := hmem c (List.mem_cons_of_mem _ hc)
        have hne : c ≠ col := fun he => hcol_notin (he ▸ hc)
        exact (List.mem_erase_of_ne hne).2 hcu
      have hperm := ih (u.erase col) hnd' hmem'
      have hstep : matchColumnsAux cols ((f, a) :: rest) u =
          ((f, col) :: (matchColumnsAux cols rest (u.erase col)).1,
            (matchColumnsAux cols rest (u.erase col)).2) := by
        simp only [matchColumnsAux]
        rw [h]
      rw [hstep]
      refine (List.perm_cons_erase hcolu).trans ?_
      simpa using hperm.cons col

/-- The alias lists of the program's fixed table are pairwise
disjoint. -/
theorem expected_mapping_disjoint :
    expected_mapping.Pairwise (fun p q => ∀ s ∈ p.2, s ∉ q.2) := by decide

/-- For the program's fixed table, the source columns are a permutation
of the mapping values together with the unmatched list. -/
theorem mapColumns_perm (cols : List String) :
    cols.Perm ((mapColumns cols).1.map Prod.snd ++ (mapColumns cols).2) := by
  refine matchColumnsAux_perm cols expected_mapping cols
    (matched_values_nodup expected_mapping_disjoint) ?_
  intro c hc
  exact (mem_matched_values hc).1

/-- The blocking classification holds exactly when some critical field
is absent from the mapping. -/
theorem blocking_iff_missing (mapped : List (String × String)) :
    blocking mapped = true ↔ ∃ f ∈ critical_fields, hasField mapped f = false := by
  simp [blocking, missing_critical, List.isEmpty_iff, List.filter_eq_nil_iff]

/-- C1: with the program's fixed alias table, every occurrence of a
source column label is accounted for exactly once across the mapping
values and the unmatched list: for every label, its number of
occurrences among the source columns equals its occurrences among the
mapping values plus its occurrences in the unmatched list. -/
theorem claim_C1_partition (cols : List String) (s : String) :
    cols.count s =
      ((mapColumns cols).1.map Prod.snd).count s + (mapColumns cols).2.count s := by
  have h := (mapColumns_perm cols).count_eq s
  simpa [List.count_append] using h

/-- C1 witness at a concrete input. -/
theorem claim_C1_partition_witness :
    ["Owner", "Owner", "Notes"].count "Owner" =
      ((mapColumns ["Owner", "Owner", "Notes"]).1.map Prod.snd).count "Owner" +
        (mapColumns ["Owner", "Owner", "Notes"]).2.count "Owner" :=
  claim_C1_partition ["Owner", "Owner", "Notes"] "Owner"

/-- C2: for each canonical field the mapper records the first source
column (in original source order) whose label lies in the field's alias
list and then stops scanning for that field; a source column never used
as a mapping value stays in the unmatched list; in particular on
`["Owner", "OWNER"]` the field `ownerName` is mapped to `"Owner"` and
`"OWNER"` remains unmatched. -/
theorem claim_C2_first_match_wins :
    (∀ cols : List String,
        (mapColumns cols).1 =
          expected_mapping.filterMap
            (fun fa => (cols.find? (fun col => fa.2.contains col)).map
              (fun col => (fa.1, col))))
    ∧ (∀ (cols : List String) (c : String), c ∈ cols →
        (∀ p ∈ (mapColumns cols).1, p.2 ≠ c) → c ∈ (mapColumns cols).2)
    ∧ (mapColumns ["Owner", "OWNER"]).1 = [("ownerName", "Owner")]
    ∧ "OWNER" ∈ (mapColumns ["Owner", "OWNER"]).2 := by
  refine ⟨fun cols => matchColumnsAux_fst cols expected_mapping cols, ?_, by decide, by decide⟩
  intro cols c hc hne
  have hmem : c ∈ (mapColumns cols).1.map Prod.snd ++ (mapColumns cols).2 :=
    ((mapColumns_perm cols).mem_iff).mp hc
  rcases List.mem_append.mp hmem with hL | hR
  · obtain ⟨p, hp, hpc⟩ := List.mem_map.mp hL
    exact absurd hpc (hne p hp)
  · exact hR

/-- C2 witness: the unmatched-stays hypothesis discharged at the
concrete `["Owner", "OWNER"]` input. -/
theorem claim_C2_first_match_wins_witness :
    "OWNER" ∈ (mapColumns ["Owner", "OWNER"]).2 :=
  claim_C2_first_match_wins.2.1 ["Owner", "OWNER"] "OWNER" (by decide) (by decide)

/-- C3: the outcome is blocking exactly when one of the four critical
fields is absent from the mapping; on `["Account Number", "Notes"]` the
mapping holds only `accountNumber`, `"Notes"` is unmatched, and the
check is blocking with the other three critical fields missing. -/
theorem claim_C3_critical_gate :
    (∀ cols : List String,
        blocking (mapColumns cols).1 = true ↔
          ∃ f ∈ critical_fields, hasField (mapColumns cols).1 f = false)
    ∧ (mapColumns ["Account Number", "Notes"]).1 = [("accountNumber", "Account Number")]
    ∧ (mapColumns ["Account Number", "Notes"]).2 = ["Notes"]
    ∧ missing_critical (mapColumns ["Account Number", "Notes"]).1 =
        ["ownerName", "propertyAddress", "totalDue"]
    ∧ blocking (mapColumns ["Account Number", "Notes"]).1 = true := by
  exact ⟨fun cols => blocking_iff_missing (mapColumns cols).1,
    by decide, by decide, by decide, by decide⟩

/-- C4: on the five concrete input columns the mapping covers exactly
the four critical fields with the like-named labels, `"Notes"` is
unmatched, and the critical-field check is non-blocking. -/
theorem claim_C4_happy_path :
    mapColumns ["Account Number", "Owner Name", "Property Address", "Total Due", "Notes"] =
      ([("accountNumber", "Account Number"), ("ownerName", "Owner Name"),
        ("propertyAddress", "Property Address"), ("totalDue", "Total Due")], ["Notes"])
    ∧ missing_critical
        (mapColumns ["Account Number", "Owner Name", "Property Address",
          "Total Due", "Notes"]).1 = []
    ∧ blocking
        (mapColumns ["Account Number", "Owner Name", "Property Address",
          "Total Due", "Notes"]).1 = false := by
  exact ⟨by decide, by decide, by decide⟩

/-- C5: matching is exact string equality against the alias lists: a
label lying in no field's alias list is never recorded as a mapping
value and every one of its occurrences stays in the unmatched list; in
particular `"account number"` (lower case) matches nothing. -/
theorem claim_C5_exact_match :
    (∀ (cols : List String) (s : String),
        (∀ fa ∈ expected_mapping, s ∉ fa.2) →
        (mapColumns cols).2.count s = cols.count s ∧
          s ∉ (mapColumns cols).1.map Prod.snd)
    ∧ (∀ fa ∈ expected_mapping, "account number" ∉ fa.2)
    ∧ mapColumns ["account number"] = ([], ["account number"]) := by
  refine ⟨?_, by decide, by decide⟩
  intro cols s hs
  have hnotmv : s ∉ (mapColumns cols).1.map Prod.snd := by
    rw [mapColumns, matchColumns, matchColumnsAux_fst_snd]
    intro hmem
    obtain ⟨-, fa, hfa, hsfa⟩ := mem_matched_values hmem
    exact hs fa hfa hsfa
  refine ⟨?_, hnotmv⟩
  have hcount := (mapColumns_perm cols).count_eq s
  rw [List.count_append, List.count_eq_zero_of_not_mem hnotmv] at hcount
  omega

/-- C5 witness: hypotheses discharged at `"account number"`. -/
theorem claim_C5_exact_match_witness :
    (mapColumns ["account number"]).2.count "account number" =
      ["account number"].count "account number" ∧
      "account number" ∉ (mapColumns ["account number"]).1.map Prod.snd :=
  claim_C5_exact_match.1 ["account number"] "account number" (by decide)

/-- C6: in the fixed alias table every field has at least one alias and
alias lists of distinct fields are pairwise disjoint; consequently no
source column label is recorded as the value of two different canonical
fields. -/
theorem claim_C6_no_collisions :
    (∀ fa ∈ expected_mapping, fa.2 ≠ [])
    ∧ expected_mapping.Pairwise (fun p q => ∀ s ∈ p.2, s ∉ q.2)
    ∧ ∀ (cols : List String) (f₁ f₂ c : String),
        (f₁, c) ∈ (mapColumns cols).1 → (f₂, c) ∈ (mapColumns cols).1 → f₁ = f₂ := by
  refine ⟨by decide, expected_mapping_disjoint, ?_⟩
  intro cols f₁ f₂ c h₁ h₂
  rw [mapColumns, matchColumns, matchColumnsAux_fst] at h₁ h₂
  obtain ⟨fa₁, hfa₁, he₁⟩ := List.mem_filterMap.mp h₁
  obtain ⟨fa₂, hfa₂, he₂⟩ := List.mem_filterMap.mp h₂
  obtain ⟨c₁, hc₁, hpair₁⟩ := Option.map_eq_some'.mp he₁
  obtain ⟨c₂, hc₂, hpair₂⟩ := Option.map_eq_some'.mp he₂
  injection hpair₁ with hf₁ hcc₁
  injection hpair₂ with hf₂ hcc₂
  rw [hcc₁] at hc₁
  rw [hcc₂] at hc₂
  have hcm₁ : c ∈ fa₁.2 := by simpa using List.find?_some hc₁
  have hcm₂ : c ∈ fa₂.2 := by simpa using List.find?_some hc₂
  by_cases hfe : fa₁ = fa₂
  · rw [← hf₁, ← hf₂, hfe]
  · have hsymm : Symmetric (fun (p q : String × List String) => ∀ s ∈ p.2, s ∉ q.2) :=
      fun p q h s hsq hsp => h s hsp hsq
    exact absurd hcm₂ (expected_mapping_disjoint.forall hsymm hfa₁ hfa₂ hfe c hcm₁)

/-- C6 witness: the two memberships discharged at a concrete input. -/
theorem claim_C6_no_collisions_witness :
    ("ownerName", "Owner") ∈ (mapColumns ["Owner"]).1 ∧ "ownerName" = "ownerName" :=
  ⟨by decide,
    claim_C6_no_collisions.2.2 ["Owner"] "ownerName" "ownerName" "Owner"
      (by decide) (by decide)⟩

/-- C7: on empty input the mapper returns an empty mapping and an empty
unmatched list, so every canonical field is absent from the mapping. -/
theorem claim_C7_empty_input :
    mapColumns [] = ([], []) ∧ ∀ f c, (f, c) ∉ (mapColumns []).1 := by
  refine ⟨rfl, ?_⟩
  intro f c hmem
  rw [show (mapColumns []).1 = [] from rfl] at hmem
  exact List.not_mem_nil _ hmem

/-- C8: the merge considers exactly the names `batch_01.xlsx` through
`batch_20.xlsx` in ascending order; if every one of them is missing no
output is produced, while if at least one exists an output is
written. -/
theorem claim_C8_batch_files :
    batch_names =
      ["batch_01.xlsx", "batch_02.xlsx", "batch_03.xlsx", "batch_04.xlsx",
       "batch_05.xlsx", "batch_06.xlsx", "batch_07.xlsx", "batch_08.xlsx",
       "batch_09.xlsx", "batch_10.xlsx", "batch_11.xlsx", "batch_12.xlsx",
       "batch_13.xlsx", "batch_14.xlsx", "batch_15.xlsx", "batch_16.xlsx",
       "batch_17.xlsx", "batch_18.xlsx", "batch_19.xlsx", "batch_20.xlsx"]
    ∧ (∀ (α : Type) (fs : String → Option (List α)),
        (∀ n ∈ batch_names, fs n = none) → merge_batches fs = none)
    ∧ (∀ (α : Type) (fs : String → Option (List α)),
        (∃ n ∈ batch_names, (fs n).isSome) → (merge_batches fs).isSome) := by
  refine ⟨by decide, ?_, ?_⟩
  · intro α fs h
    have hnil : batch_names.filterMap fs = [] := by
      rw [List.filterMap_eq_nil_iff]
      exact h
    simp [merge_batches, hnil]
  · intro α fs hex
    obtain ⟨n, hn, hsome⟩ := hex
    simp only [merge_batches]
    split
    · next hE =>
      rw [List.isEmpty_iff, List.filterMap_eq_nil_iff] at hE
      rw [hE n hn] at hsome
      simp at hsome
    · simp

/-- C8 witness: the all-missing and one-present hypotheses discharged
at concrete filesystems. -/
theorem claim_C8_batch_files_witness :
    merge_batches (fun _ => (none : Option (List Nat))) = none
    ∧ (merge_batches
        (fun n => if n = "batch_07.xlsx" then some [3] else (none : Option (List Nat)))).isSome :=
  ⟨claim_C8_batch_files.2.1 Nat _ (fun _ _ => rfl),
    claim_C8_batch_files.2.2 Nat _ ⟨"batch_07.xlsx", by decide, by decide⟩⟩

/-- C9: a raised exception (e.g. a read failure) is caught by
`analyze_excel`, which returns `(None, None)` instead of propagating,
and the caller then skips the follow-up tip; on a successful read the
frame and mapping are returned and the tip is shown. -/
theorem claim_C9_catch_all :
    (∀ e : String, analyze_excel (Except.error e) = none ∧
        tip_shown (analyze_excel (Except.error e)) = false)
    ∧ ∀ df : Frame,
        analyze_excel (Except.ok df) = some (df, (mapColumns df.columns).1) ∧
          tip_shown (analyze_excel (Except.ok df)) = true :=
  ⟨fun _ => ⟨rfl, rfl⟩, fun _ => ⟨rfl, rfl⟩⟩

/-- C10: when at least one batch file is read, the output rows are the
concatenation, in ascending batch order, of the read files' rows in
their original order; the merged row count is the sum of the files' row
counts; and no index column is added. -/
theorem claim_C10_merge_content (α : Type) (fs : String → Option (List α))
    (h : batch_names.filterMap fs ≠ []) :
    merge_batches fs =
      some { rows := (batch_names.filterMap fs).flatten, index_included := false }
    ∧ ((batch_names.filterMap fs).flatten).length =
        ((batch_names.filterMap fs).map List.length).sum := by
  constructor
  · simp only [merge_batches]
    split
    · next hE => exact absurd (List.isEmpty_iff.mp hE) h
    · rfl
  · exact List.length_flatten _

/-- C10 witness: two concrete batch files merged. -/
theorem claim_C10_merge_content_witness :
    merge_batches
      (fun n => if n = "batch_01.xlsx" then some [1, 2]
        else if n = "batch_02.xlsx" then some [3] else (none : Option (List Nat))) =
      some { rows := [1, 2, 3], index_included := false } :=
  (claim_C10_merge_content Nat
    (fun n => if n = "batch_01.xlsx" then some [1, 2]
      else if n = "batch_02.xlsx" then some [3] else (none : Option (List Nat)))
    (by decide)).1.trans (by decide)

end CountyCad
